import Mathlib

/-!
Shallow embedding of `src/app/src/hid_keyboard.c` (scrcpy HID keyboard).

The component translates SDL keyboard events into USB HID boot-keyboard
reports.  State (`kb->keys`) is modelled as a `List Bool` of length
`HID_KEYBOARD_KEYS`; the C functions become pure Lean functions returning
the new state together with the produced report bytes.  `malloc` failure in
`create_hid_keyboard_event` is modelled by an explicit `allocOk : Bool`
parameter.
-/

/-- Modelled from the spec: `HID_KEYBOARD_KEYS` is declared in
`hid_keyboard.h`, which is not part of the sources under review.  The spec
fixes the encodable key-code range to 0..101 ("range: protocol-defined
maximum, e.g. 0..101"), and the descriptor comments in `hid_keyboard.c`
("Usage Maximum (101)", "Logical Maximum(101)" for `HID_KEYBOARD_KEYS - 1`)
give the same value, so the table has 102 entries. -/
def HID_KEYBOARD_KEYS : Nat := 102

def HID_KEYBOARD_ACCESSORY_ID : Nat := 1

def HID_KEYBOARD_MODIFIER_NONE : Nat := 0x00
def HID_KEYBOARD_MODIFIER_LEFT_CONTROL : Nat := 1 <<< 0
def HID_KEYBOARD_MODIFIER_LEFT_SHIFT : Nat := 1 <<< 1
def HID_KEYBOARD_MODIFIER_LEFT_ALT : Nat := 1 <<< 2
def HID_KEYBOARD_MODIFIER_LEFT_GUI : Nat := 1 <<< 3
def HID_KEYBOARD_MODIFIER_RIGHT_CONTROL : Nat := 1 <<< 4
def HID_KEYBOARD_MODIFIER_RIGHT_SHIFT : Nat := 1 <<< 5
def HID_KEYBOARD_MODIFIER_RIGHT_ALT : Nat := 1 <<< 6
def HID_KEYBOARD_MODIFIER_RIGHT_GUI : Nat := 1 <<< 7

def HID_KEYBOARD_INDEX_MODIFIER : Nat := 0
def HID_KEYBOARD_INDEX_KEYS : Nat := 2

def HID_KEYBOARD_MAX_KEYS : Nat := 6
def HID_KEYBOARD_EVENT_SIZE : Nat := 2 + HID_KEYBOARD_MAX_KEYS

def HID_KEYBOARD_RESERVED : Nat := 0x00
def HID_KEYBOARD_ERROR_ROLL_OVER : Nat := 0x01

/-! SDL2 constants (external collaborator values, from `SDL_events.h`,
`SDL_scancode.h` and `SDL_keycode.h`). -/

def SDL_KEYDOWN : Nat := 0x300
def SDL_KEYUP : Nat := 0x301

def SDL_SCANCODE_A : Nat := 4
def SDL_SCANCODE_LCTRL : Nat := 224
def SDL_SCANCODE_LSHIFT : Nat := 225
def SDL_SCANCODE_RGUI : Nat := 231

def KMOD_NONE : Nat := 0x0000
def KMOD_LSHIFT : Nat := 0x0001
def KMOD_RSHIFT : Nat := 0x0002
def KMOD_LCTRL : Nat := 0x0040
def KMOD_RCTRL : Nat := 0x0080
def KMOD_LALT : Nat := 0x0100
def KMOD_RALT : Nat := 0x0200
def KMOD_LGUI : Nat := 0x0400
def KMOD_RGUI : Nat := 0x0800

/-- The relevant fields of an `SDL_KeyboardEvent`: `event->type`
(`SDL_KEYDOWN`/`SDL_KEYUP`), `event->repeat`, `event->keysym.scancode` and
`event->keysym.mod`. -/
structure SDL_KeyboardEvent where
  etype : Nat
  repeat_ : Bool
  scancode : Nat
  keymod : Nat

/-- The 63-byte HID report descriptor `keyboard_report_desc` from
`hid_keyboard.c` (lines 56-128), byte for byte. -/
def keyboard_report_desc : List Nat :=
  [0x05, 0x01,
   0x09, 0x06,
   0xA1, 0x01,
   0x05, 0x07,
   0x19, 0xE0,
   0x29, 0xE7,
   0x15, 0x00,
   0x25, 0x01,
   0x75, 0x01,
   0x95, 0x08,
   0x81, 0x02,
   0x75, 0x08,
   0x95, 0x01,
   0x81, 0x01,
   0x05, 0x08,
   0x19, 0x01,
   0x29, 0x05,
   0x75, 0x01,
   0x95, 0x05,
   0x91, 0x02,
   0x75, 0x03,
   0x95, 0x01,
   0x91, 0x01,
   0x05, 0x07,
   0x19, 0x00,
   0x29, HID_KEYBOARD_KEYS - 1,
   0x15, 0x00,
   0x25, HID_KEYBOARD_KEYS - 1,
   0x75, 0x08,
   0x95, HID_KEYBOARD_MAX_KEYS,
   0x81, 0x00,
   0xC0]

/-- `create_hid_keyboard_event`: a fresh buffer with byte 0 =
`HID_KEYBOARD_MODIFIER_NONE`, byte 1 = `HID_KEYBOARD_RESERVED`, key slots
zeroed.  A `malloc` failure is modelled by the caller's `allocOk` flag. -/
def create_hid_keyboard_event : List Nat :=
  HID_KEYBOARD_MODIFIER_NONE :: HID_KEYBOARD_RESERVED ::
    List.replicate HID_KEYBOARD_MAX_KEYS 0

/-- `sdl_keymod_to_hid_modifiers` (lines 143-171). -/
def sdl_keymod_to_hid_modifiers (mod : Nat) : Nat :=
  let m0 := HID_KEYBOARD_MODIFIER_NONE
  let m1 := if mod &&& KMOD_LCTRL ≠ 0 then m0 ||| HID_KEYBOARD_MODIFIER_LEFT_CONTROL else m0
  let m2 := if mod &&& KMOD_LSHIFT ≠ 0 then m1 ||| HID_KEYBOARD_MODIFIER_LEFT_SHIFT else m1
  let m3 := if mod &&& KMOD_LALT ≠ 0 then m2 ||| HID_KEYBOARD_MODIFIER_LEFT_ALT else m2
  let m4 := if mod &&& KMOD_LGUI ≠ 0 then m3 ||| HID_KEYBOARD_MODIFIER_LEFT_GUI else m3
  let m5 := if mod &&& KMOD_RCTRL ≠ 0 then m4 ||| HID_KEYBOARD_MODIFIER_RIGHT_CONTROL else m4
  let m6 := if mod &&& KMOD_RSHIFT ≠ 0 then m5 ||| HID_KEYBOARD_MODIFIER_RIGHT_SHIFT else m5
  let m7 := if mod &&& KMOD_RALT ≠ 0 then m6 ||| HID_KEYBOARD_MODIFIER_RIGHT_ALT else m6
  let m8 := if mod &&& KMOD_RGUI ≠ 0 then m7 ||| HID_KEYBOARD_MODIFIER_RIGHT_GUI else m7
  m8

/-- The scan loop of `convert_hid_keyboard_event` (lines 196-214): walk the
pending indices in order; on a pressed key, if 6 slots are already filled,
overwrite all 6 slots with `HID_KEYBOARD_ERROR_ROLL_OVER` and stop,
otherwise append the key code; on completion the remaining slots keep their
zero initialisation from `create_hid_keyboard_event`. -/
def scanLoop (keys : List Bool) : List Nat → List Nat → List Nat
  | [], acc => acc ++ List.replicate (HID_KEYBOARD_MAX_KEYS - acc.length) 0
  | i :: rest, acc =>
    if keys.getD i false then
      if HID_KEYBOARD_MAX_KEYS ≤ acc.length then
        List.replicate HID_KEYBOARD_MAX_KEYS HID_KEYBOARD_ERROR_ROLL_OVER
      else
        scanLoop keys rest (acc ++ [i])
    else
      scanLoop keys rest acc

/-- The key-slot bytes (buffer indices 2..7) computed by the
`for (int i = 0; i < HID_KEYBOARD_KEYS; ++i)` loop. -/
def encodeKeySlots (keys : List Bool) : List Nat :=
  scanLoop keys (List.range HID_KEYBOARD_KEYS) []

/-- The key codes whose table entry is currently `true`, in increasing
order (the order the scan loop visits them). -/
def pressedList (keys : List Bool) : List Nat :=
  (List.range HID_KEYBOARD_KEYS).filter (fun i => keys.getD i false)

def pressedCount (keys : List Bool) : Nat :=
  (pressedList keys).length

/-- `convert_hid_keyboard_event` (lines 173-217): allocate the buffer (or
fail), compute the modifier mask, update `kb->keys[scancode]` when
`scancode < HID_KEYBOARD_KEYS`, store the mask in byte 0, and run the scan
loop.  Returns the updated key table together with the report bytes, or
`none` on allocation failure (the table untouched). -/
def convert_hid_keyboard_event (allocOk : Bool) (keys : List Bool)
    (event : SDL_KeyboardEvent) : Option (List Bool × List Nat) :=
  if allocOk then
    let modifiers := sdl_keymod_to_hid_modifiers event.keymod
    let keys' :=
      if event.scancode < HID_KEYBOARD_KEYS then
        keys.set event.scancode (event.etype == SDL_KEYDOWN)
      else
        keys
    some (keys', modifiers :: HID_KEYBOARD_RESERVED :: encodeKeySlots keys')
  else
    none

/-- `scancode_is_modifier` (lines 219-222). -/
def scancode_is_modifier (scancode : Nat) : Bool :=
  decide (SDL_SCANCODE_LCTRL ≤ scancode) && decide (scancode ≤ SDL_SCANCODE_RGUI)

/-- `hid_keyboard_convert_event` (lines 224-247): forward supported events
(encodable scancode, or a dedicated modifier scancode) to
`convert_hid_keyboard_event`; drop the rest. -/
def hid_keyboard_convert_event (allocOk : Bool) (keys : List Bool)
    (event : SDL_KeyboardEvent) : Option (List Bool × List Nat) :=
  if event.scancode < HID_KEYBOARD_KEYS ∨ scancode_is_modifier event.scancode = true then
    convert_hid_keyboard_event allocOk keys event
  else
    none

/-- `sc_key_processor_process_key` (lines 249-267): drop repeat events;
otherwise convert, and push the produced report (if any) to the transport.
Returns the key table after the call and the report handed to
`aoa_push_hid_event` (`none` when no report was produced). -/
def sc_key_processor_process_key (allocOk : Bool) (keys : List Bool)
    (event : SDL_KeyboardEvent) : List Bool × Option (List Nat) :=
  if event.repeat_ then
    (keys, none)
  else
    match hid_keyboard_convert_event allocOk keys event with
    | some (keys', report) => (keys', some report)
    | none => (keys, none)

/-- The arguments `hid_keyboard_init` passes to `aoa_setup_hid`
(lines 282-284). -/
structure InitRegistration where
  accessory_id : Nat
  desc : List Nat
  desc_len : Nat

/-- `hid_keyboard_init` (lines 278-301): register the static descriptor
under `HID_KEYBOARD_ACCESSORY_ID`; on success reset all key states.
Returns the success flag, the registration performed, and the key table
after the call. -/
def hid_keyboard_init (setupOk : Bool) (keys : List Bool) :
    Bool × InitRegistration × List Bool :=
  let reg : InitRegistration :=
    ⟨HID_KEYBOARD_ACCESSORY_ID, keyboard_report_desc, keyboard_report_desc.length⟩
  if setupOk then
    (true, reg, List.replicate HID_KEYBOARD_KEYS false)
  else
    (false, reg, keys)

/-- The all-false key table established by `hid_keyboard_init`. -/
def table0 : List Bool := List.replicate HID_KEYBOARD_KEYS false

theorem scanLoop_complete (keys : List Bool) (rest : List Nat) :
    ∀ acc : List Nat,
      acc.length + (rest.filter (fun i => keys.getD i false)).length ≤ HID_KEYBOARD_MAX_KEYS →
      scanLoop keys rest acc =
        (acc ++ rest.filter (fun i => keys.getD i false)) ++
          List.replicate
            (HID_KEYBOARD_MAX_KEYS -
              (acc.length + (rest.filter (fun i => keys.getD i false)).length)) 0 := by
  induction rest with
  | nil => intro acc h; simp [scanLoop]
  | cons i rest ih =>
    intro acc h
    by_cases hp : keys.getD i false
    · have hfil : List.filter (fun i => keys.getD i false) (i :: rest) =
          i :: rest.filter (fun i => keys.getD i false) :=
        List.filter_cons_of_pos hp
      rw [hfil] at h ⊢
      have hlt : ¬ HID_KEYBOARD_MAX_KEYS ≤ acc.length := by
        simp only [List.length_cons, HID_KEYBOARD_MAX_KEYS] at h ⊢
        omega
      rw [scanLoop]
      simp only [hp, if_true, hlt, if_false]
      rw [ih (acc ++ [i])
        (by simp only [List.length_append, List.length_cons, List.length_singleton,
              List.length_nil, HID_KEYBOARD_MAX_KEYS] at h ⊢; omega)]
      rw [List.append_assoc acc [i]]
      simp only [List.singleton_append, List.length_append, List.length_singleton,
        List.length_cons]
      congr 2
      simp only [List.length_nil, List.length_cons]
      omega
    · have hfil : List.filter (fun i => keys.getD i false) (i :: rest) =
          rest.filter (fun i => keys.getD i false) :=
        List.filter_cons_of_neg (by simpa using hp)
      rw [hfil] at h ⊢
      rw [scanLoop]
      simp only [hp, if_false]
      exact ih acc h

theorem scanLoop_rollover (keys : List Bool) (rest : List Nat) :
    ∀ acc : List Nat,
      acc.length ≤ HID_KEYBOARD_MAX_KEYS →
      HID_KEYBOARD_MAX_KEYS < acc.length + (rest.filter (fun i => keys.getD i false)).length →
      scanLoop keys rest acc =
        List.replicate HID_KEYBOARD_MAX_KEYS HID_KEYBOARD_ERROR_ROLL_OVER := by
  induction rest with
  | nil =>
    intro acc h1 h2
    simp only [List.filter_nil, List.length_nil, Nat.add_zero] at h2
    omega
  | cons i rest ih =>
    intro acc h1 h2
    by_cases hp : keys.getD i false
    · have hfil : List.filter (fun i => keys.getD i false) (i :: rest) =
          i :: rest.filter (fun i => keys.getD i false) :=
        List.filter_cons_of_pos hp
      rw [hfil, List.length_cons] at h2
      by_cases hge : HID_KEYBOARD_MAX_KEYS ≤ acc.length
      · rw [scanLoop]
        simp only [hp, if_true, hge, if_true]
      · rw [scanLoop]
        simp only [hp, if_true, hge, if_false]
        refine ih (acc ++ [i]) ?_ ?_
        · simp only [List.length_append, List.length_cons, List.length_nil]
          omega
        · simp only [List.length_append, List.length_cons, List.length_nil]
          omega
    · have hfil : List.filter (fun i => keys.getD i false) (i :: rest) =
          rest.filter (fun i => keys.getD i false) :=
        List.filter_cons_of_neg (by simpa using hp)
      rw [hfil] at h2
      rw [scanLoop]
      simp only [hp, if_false]
      exact ih acc h1 h2

theorem encodeKeySlots_le (keys : List Bool)
    (h : pressedCount keys ≤ HID_KEYBOARD_MAX_KEYS) :
    encodeKeySlots keys =
      pressedList keys ++ List.replicate (HID_KEYBOARD_MAX_KEYS - pressedCount keys) 0 := by
  have hc := scanLoop_complete keys (List.range HID_KEYBOARD_KEYS) []
  simp only [pressedCount, pressedList] at h ⊢
  rw [encodeKeySlots, hc (by simpa using h)]
  simp

theorem encodeKeySlots_rollover (keys : List Bool)
    (h : HID_KEYBOARD_MAX_KEYS < pressedCount keys) :
    encodeKeySlots keys =
      List.replicate HID_KEYBOARD_MAX_KEYS HID_KEYBOARD_ERROR_ROLL_OVER := by
  have hc := scanLoop_rollover keys (List.range HID_KEYBOARD_KEYS) []
  simp only [pressedCount, pressedList] at h
  rw [encodeKeySlots]
  exact hc (by simp [HID_KEYBOARD_MAX_KEYS]) (by simpa using h)

theorem pressedList_sorted (keys : List Bool) :
    List.Sorted (· < ·) (pressedList keys) :=
  List.Pairwise.sublist (List.filter_sublist _) (List.sorted_lt_range _)

theorem pressedList_nodup (keys : List Bool) : (pressedList keys).Nodup :=
  (List.nodup_range _).filter _

theorem pressedList_mem (keys : List Bool) (k : Nat) :
    k ∈ pressedList keys ↔ k < HID_KEYBOARD_KEYS ∧ keys.getD k false = true := by
  simp [pressedList, List.mem_filter, List.mem_range]

/-! Concrete inputs used by the scenario theorem, the witnesses and the
counterexamples. -/

/-- Press 'A' (scancode 4), no modifiers held. -/
def evA_down : SDL_KeyboardEvent := ⟨SDL_KEYDOWN, false, SDL_SCANCODE_A, KMOD_NONE⟩

/-- Press Left-Shift (scancode 225) with `KMOD_LSHIFT` set. -/
def evLShift_down : SDL_KeyboardEvent := ⟨SDL_KEYDOWN, false, SDL_SCANCODE_LSHIFT, KMOD_LSHIFT⟩

/-- Release 'A' while Left-Shift is still held. -/
def evA_up : SDL_KeyboardEvent := ⟨SDL_KEYUP, false, SDL_SCANCODE_A, KMOD_LSHIFT⟩

/-- Press Left-Control (scancode 224) with `KMOD_LCTRL` set. -/
def evLCtrl_down : SDL_KeyboardEvent := ⟨SDL_KEYDOWN, false, SDL_SCANCODE_LCTRL, KMOD_LCTRL⟩

/-- Auto-repeat key-down for 'A'. -/
def evA_repeat : SDL_KeyboardEvent := ⟨SDL_KEYDOWN, true, SDL_SCANCODE_A, KMOD_NONE⟩

/-- Key-down for scancode 160: outside the encodable range (≥ 102) and not a
dedicated modifier (224..231). -/
def evUnsupported_down : SDL_KeyboardEvent := ⟨SDL_KEYDOWN, false, 160, KMOD_NONE⟩

/-- Key-down for scancode 1, the value that doubles as the roll-over
sentinel byte. -/
def evScan1_down : SDL_KeyboardEvent := ⟨SDL_KEYDOWN, false, 1, KMOD_NONE⟩

/-- Key-down for scancode 10, the seventh key of the rollover scenario. -/
def evScan10_down : SDL_KeyboardEvent := ⟨SDL_KEYDOWN, false, 10, KMOD_NONE⟩

/-- A table with the six keys 4..9 pressed. -/
def table6 : List Bool :=
  (((((table0.set 4 true).set 5 true).set 6 true).set 7 true).set 8 true).set 9 true

/-- C4: starting from the all-false table, pressing 'A' yields modifier byte
0x00 and key slots [A,0,0,0,0,0]; then pressing Left-Shift yields modifier
byte 0x02 with 'A' still reported; then releasing 'A' yields modifier byte
0x02 and all key slots zero. -/
theorem C4_concrete_scenario :
    sc_key_processor_process_key true table0 evA_down =
        (table0.set SDL_SCANCODE_A true,
          some [0x00, 0x00, SDL_SCANCODE_A, 0, 0, 0, 0, 0]) ∧
      sc_key_processor_process_key true (table0.set SDL_SCANCODE_A true) evLShift_down =
        (table0.set SDL_SCANCODE_A true,
          some [0x02, 0x00, SDL_SCANCODE_A, 0, 0, 0, 0, 0]) ∧
      sc_key_processor_process_key true (table0.set SDL_SCANCODE_A true) evA_up =
        ((table0.set SDL_SCANCODE_A true).set SDL_SCANCODE_A false,
          some [0x02, 0x00, 0, 0, 0, 0, 0, 0]) := by
  decide

/-- C6: an event whose repeat flag is true is dropped by
`sc_key_processor_process_key`: the key table is unchanged and no report is
produced or pushed to the transport. -/
theorem C6_repeat_ignored (allocOk : Bool) (keys : List Bool)
    (event : SDL_KeyboardEvent) (hrep : event.repeat_ = true) :
    sc_key_processor_process_key allocOk keys event = (keys, none) := by
  simp [sc_key_processor_process_key, hrep]

/-- Witness for C6: the repeat press of 'A' leaves the all-false table
unchanged and produces no report. -/
theorem C6_repeat_ignored_witness :
    evA_repeat.repeat_ = true ∧
      sc_key_processor_process_key true table0 evA_repeat = (table0, none) :=
  ⟨by decide, C6_repeat_ignored true table0 evA_repeat (by decide)⟩

/-- C7: an event whose scancode is outside the encodable range and is not a
dedicated modifier key code leaves every key-table entry unchanged and
produces no report. -/
theorem C7_unsupported_ignored (allocOk : Bool) (keys : List Bool)
    (event : SDL_KeyboardEvent) (hout : HID_KEYBOARD_KEYS ≤ event.scancode)
    (hnmod : scancode_is_modifier event.scancode = false) :
    sc_key_processor_process_key allocOk keys event = (keys, none) := by
  have hcond : ¬ (event.scancode < HID_KEYBOARD_KEYS ∨
      scancode_is_modifier event.scancode = true) := by
    rintro (h | h)
    · omega
    · rw [hnmod] at h
      exact Bool.false_ne_true h
  by_cases hrep : event.repeat_
  · simp [sc_key_processor_process_key, hrep]
  · simp [sc_key_processor_process_key, hrep, hid_keyboard_convert_event, hcond]

/-- Witness for C7: scancode 160 (not encodable, not a modifier) is
discarded with the table unchanged. -/
theorem C7_unsupported_ignored_witness :
    HID_KEYBOARD_KEYS ≤ evUnsupported_down.scancode ∧
      scancode_is_modifier evUnsupported_down.scancode = false ∧
      sc_key_processor_process_key true table0 evUnsupported_down = (table0, none) :=
  ⟨by decide, by decide,
    C7_unsupported_ignored true table0 evUnsupported_down (by decide) (by decide)⟩

/-- C10: when buffer allocation fails, `convert_hid_keyboard_event` returns
failure before touching the key table, and `sc_key_processor_process_key`
leaves the table exactly as it was and pushes no report. -/
theorem C10_alloc_failure_no_effect (keys : List Bool) (event : SDL_KeyboardEvent) :
    convert_hid_keyboard_event false keys event = none ∧
      sc_key_processor_process_key false keys event = (keys, none) := by
  refine ⟨rfl, ?_⟩
  by_cases hrep : event.repeat_
  · simp [sc_key_processor_process_key, hrep]
  · simp only [sc_key_processor_process_key, hrep, if_false,
      hid_keyboard_convert_event]
    by_cases hc : event.scancode < HID_KEYBOARD_KEYS ∨
        scancode_is_modifier event.scancode = true
    · simp [hc, convert_hid_keyboard_event]
    · simp [hc]

/-- C9: `keyboard_report_desc` is a fixed 63-byte sequence, and every call
of `hid_keyboard_init` registers exactly those bytes (with their length)
under the fixed accessory id, whatever the prior table and however the
transport answers. -/
theorem C9_descriptor_static (s1 s2 : Bool) (k1 k2 : List Bool) :
    keyboard_report_desc.length = 63 ∧
      (hid_keyboard_init s1 k1).2.1 = (hid_keyboard_init s2 k2).2.1 ∧
      (hid_keyboard_init s1 k1).2.1.accessory_id = HID_KEYBOARD_ACCESSORY_ID ∧
      (hid_keyboard_init s1 k1).2.1.desc = keyboard_report_desc ∧
      (hid_keyboard_init s1 k1).2.1.desc_len = keyboard_report_desc.length := by
  cases s1 <;> cases s2 <;>
    refine ⟨by decide, rfl, rfl, rfl, rfl⟩

theorem convert_some_elim (keys keys' : List Bool) (event : SDL_KeyboardEvent)
    (report : List Nat)
    (hconv : convert_hid_keyboard_event true keys event = some (keys', report)) :
    report = sdl_keymod_to_hid_modifiers event.keymod :: HID_KEYBOARD_RESERVED ::
      encodeKeySlots keys' := by
  simp only [convert_hid_keyboard_event, if_true, Option.some.injEq,
    Prod.mk.injEq] at hconv
  obtain ⟨hk, hr⟩ := hconv
  rw [← hr, hk]

/-- C1: whenever `convert_hid_keyboard_event` succeeds and at most 6 table
entries are true after the event's update, the report's key-slot bytes
(indices 2..7) are exactly the true key codes in ascending order, trailing
slots zero.  The slots are a function of the table alone, hence independent
of the order the keys were pressed. -/
theorem C1_slots_are_sorted_pressed_set (keys keys' : List Bool)
    (event : SDL_KeyboardEvent) (report : List Nat)
    (hconv : convert_hid_keyboard_event true keys event = some (keys', report))
    (hle : pressedCount keys' ≤ HID_KEYBOARD_MAX_KEYS) :
    report.drop HID_KEYBOARD_INDEX_KEYS =
        pressedList keys' ++
          List.replicate (HID_KEYBOARD_MAX_KEYS - pressedCount keys') 0 ∧
      List.Sorted (· < ·) (pressedList keys') ∧
      ∀ k, k ∈ pressedList keys' ↔
        k < HID_KEYBOARD_KEYS ∧ keys'.getD k false = true := by
  rw [convert_some_elim keys keys' event report hconv]
  refine ⟨?_, pressedList_sorted keys', fun k => pressedList_mem keys' k⟩
  simp only [HID_KEYBOARD_INDEX_KEYS, List.drop_succ_cons, List.drop_zero]
  exact encodeKeySlots_le keys' hle

/-- Witness for C1: pressing 'A' on the all-false table gives the report
[0, 0, 4, 0, 0, 0, 0, 0] whose slots are the single pressed key code. -/
theorem C1_slots_are_sorted_pressed_set_witness :
    convert_hid_keyboard_event true table0 evA_down =
        some (table0.set SDL_SCANCODE_A true,
          [0x00, 0x00, SDL_SCANCODE_A, 0, 0, 0, 0, 0]) ∧
      pressedCount (table0.set SDL_SCANCODE_A true) ≤ HID_KEYBOARD_MAX_KEYS ∧
      ([0x00, 0x00, SDL_SCANCODE_A, 0, 0, 0, 0, 0].drop HID_KEYBOARD_INDEX_KEYS =
          pressedList (table0.set SDL_SCANCODE_A true) ++
            List.replicate
              (HID_KEYBOARD_MAX_KEYS - pressedCount (table0.set SDL_SCANCODE_A true)) 0 ∧
        List.Sorted (· < ·) (pressedList (table0.set SDL_SCANCODE_A true)) ∧
        ∀ k, k ∈ pressedList (table0.set SDL_SCANCODE_A true) ↔
          k < HID_KEYBOARD_KEYS ∧ (table0.set SDL_SCANCODE_A true).getD k false = true) :=
  ⟨by decide, by decide,
    C1_slots_are_sorted_pressed_set table0 (table0.set SDL_SCANCODE_A true)
      evA_down [0x00, 0x00, SDL_SCANCODE_A, 0, 0, 0, 0, 0] (by decide) (by decide)⟩

theorem encodeKeySlots_length (keys : List Bool) :
    (encodeKeySlots keys).length = HID_KEYBOARD_MAX_KEYS := by
  by_cases h : pressedCount keys ≤ HID_KEYBOARD_MAX_KEYS
  · rw [encodeKeySlots_le keys h]
    simp only [List.length_append, List.length_replicate]
    simp only [pressedCount] at h ⊢
    omega
  · rw [encodeKeySlots_rollover keys (by omega)]
    simp

theorem pairwise_replicate_zero (n : Nat) :
    List.Pairwise (fun a b : Nat => a = b → a = 0) (List.replicate n 0) := by
  induction n with
  | zero => simp
  | succ n ih =>
    rw [List.replicate_succ, List.pairwise_cons]
    exact ⟨fun b _ _ => rfl, ih⟩

/-- C8: every report produced by `convert_hid_keyboard_event` is exactly
`2 + HID_KEYBOARD_MAX_KEYS` bytes, its reserved byte (index 1) is zero, and
in a non-roll-over report (at most 6 pressed keys) two distinct slots never
hold the same nonzero key code. -/
theorem C8_report_invariants (keys keys' : List Bool)
    (event : SDL_KeyboardEvent) (report : List Nat)
    (hconv : convert_hid_keyboard_event true keys event = some (keys', report)) :
    report.length = HID_KEYBOARD_EVENT_SIZE ∧
      report.getD 1 0 = 0 ∧
      (pressedCount keys' ≤ HID_KEYBOARD_MAX_KEYS →
        List.Pairwise (fun a b => a = b → a = 0)
          (report.drop HID_KEYBOARD_INDEX_KEYS)) := by
  rw [convert_some_elim keys keys' event report hconv]
  refine ⟨?_, rfl, ?_⟩
  · simp only [List.length_cons, encodeKeySlots_length, HID_KEYBOARD_EVENT_SIZE]
    omega
  · intro hle
    simp only [HID_KEYBOARD_INDEX_KEYS, List.drop_succ_cons, List.drop_zero]
    rw [encodeKeySlots_le keys' hle]
    rw [List.pairwise_append]
    refine ⟨?_, pairwise_replicate_zero _, ?_⟩
    · exact (pressedList_nodup keys').imp (fun hne heq => absurd heq hne)
    · intro a _ b hb heq
      rw [heq]
      exact List.eq_of_mem_replicate hb

/-- Witness for C8: the report for pressing 'A' on the all-false table has
length 8, zero reserved byte, and pairwise-distinct nonzero slots. -/
theorem C8_report_invariants_witness :
    convert_hid_keyboard_event true table0 evA_down =
        some (table0.set SDL_SCANCODE_A true,
          [0x00, 0x00, SDL_SCANCODE_A, 0, 0, 0, 0, 0]) ∧
      ([0x00, 0x00, SDL_SCANCODE_A, 0, 0, 0, 0, 0].length = HID_KEYBOARD_EVENT_SIZE ∧
        [0x00, 0x00, SDL_SCANCODE_A, 0, 0, 0, 0, 0].getD 1 0 = 0 ∧
        (pressedCount (table0.set SDL_SCANCODE_A true) ≤ HID_KEYBOARD_MAX_KEYS →
          List.Pairwise (fun a b => a = b → a = 0)
            ([0x00, 0x00, SDL_SCANCODE_A, 0, 0, 0, 0, 0].drop HID_KEYBOARD_INDEX_KEYS))) :=
  ⟨by decide,
    C8_report_invariants table0 (table0.set SDL_SCANCODE_A true) evA_down
      [0x00, 0x00, SDL_SCANCODE_A, 0, 0, 0, 0, 0] (by decide)⟩

/-- Counterexample to C2 as stated: scancode 1 is encodable and equals the
roll-over sentinel byte, so with only that one key pressed (1 table entry
true, far fewer than 6) the report's first slot contains the sentinel
value. -/
theorem C2_sentinel_counterexample :
    convert_hid_keyboard_event true table0 evScan1_down =
        some (table0.set 1 true, [0x00, 0x00, 0x01, 0, 0, 0, 0, 0]) ∧
      pressedCount (table0.set 1 true) = 1 ∧
      HID_KEYBOARD_ERROR_ROLL_OVER ∈
        List.drop HID_KEYBOARD_INDEX_KEYS [0x00, 0x00, 0x01, 0, 0, 0, 0, 0] := by
  decide

/-- C2 (amended): with more than 6 table entries true the report is the
modifier mask, the zero reserved byte, and 6 roll-over sentinels; byte 0 is
always the computed modifier mask and byte 1 always zero; with at most 6
entries true no slot contains the sentinel, provided key code 1 (whose value
coincides with the sentinel byte) is not itself pressed. -/
theorem C2_rollover_phantom (keys keys' : List Bool)
    (event : SDL_KeyboardEvent) (report : List Nat)
    (hconv : convert_hid_keyboard_event true keys event = some (keys', report)) :
    (HID_KEYBOARD_MAX_KEYS < pressedCount keys' →
        report = sdl_keymod_to_hid_modifiers event.keymod :: HID_KEYBOARD_RESERVED ::
          List.replicate HID_KEYBOARD_MAX_KEYS HID_KEYBOARD_ERROR_ROLL_OVER) ∧
      report.getD HID_KEYBOARD_INDEX_MODIFIER 0 =
        sdl_keymod_to_hid_modifiers event.keymod ∧
      report.getD 1 0 = HID_KEYBOARD_RESERVED ∧
      (pressedCount keys' ≤ HID_KEYBOARD_MAX_KEYS →
        keys'.getD HID_KEYBOARD_ERROR_ROLL_OVER false = false →
        ∀ b ∈ report.drop HID_KEYBOARD_INDEX_KEYS,
          b ≠ HID_KEYBOARD_ERROR_ROLL_OVER) := by
  rw [convert_some_elim keys keys' event report hconv]
  refine ⟨?_, rfl, rfl, ?_⟩
  · intro h
    rw [encodeKeySlots_rollover keys' h]
  · intro hle hno b hb
    simp only [HID_KEYBOARD_INDEX_KEYS, List.drop_succ_cons, List.drop_zero] at hb
    rw [encodeKeySlots_le keys' hle] at hb
    rcases List.mem_append.mp hb with h | h
    · obtain ⟨hblt, hbtrue⟩ := (pressedList_mem keys' b).mp h
      intro hbe
      rw [hbe, hno] at hbtrue
      exact Bool.false_ne_true hbtrue
    · intro hbe
      rw [List.eq_of_mem_replicate h] at hbe
      exact absurd hbe (by decide)

/-- Witness for C2: with keys 4..9 already pressed, pressing key 10 yields
the phantom report whose 6 slots are all the sentinel. -/
theorem C2_rollover_phantom_witness :
    convert_hid_keyboard_event true table6 evScan10_down =
        some (table6.set 10 true,
          [0x00, 0x00, 0x01, 0x01, 0x01, 0x01, 0x01, 0x01]) ∧
      ((HID_KEYBOARD_MAX_KEYS < pressedCount (table6.set 10 true) →
          [0x00, 0x00, 0x01, 0x01, 0x01, 0x01, 0x01, 0x01] =
            sdl_keymod_to_hid_modifiers evScan10_down.keymod ::
              HID_KEYBOARD_RESERVED ::
                List.replicate HID_KEYBOARD_MAX_KEYS HID_KEYBOARD_ERROR_ROLL_OVER) ∧
        [0x00, 0x00, 0x01, 0x01, 0x01, 0x01, 0x01, 0x01].getD
            HID_KEYBOARD_INDEX_MODIFIER 0 =
          sdl_keymod_to_hid_modifiers evScan10_down.keymod ∧
        [0x00, 0x00, 0x01, 0x01, 0x01, 0x01, 0x01, 0x01].getD 1 0 =
          HID_KEYBOARD_RESERVED ∧
        (pressedCount (table6.set 10 true) ≤ HID_KEYBOARD_MAX_KEYS →
          (table6.set 10 true).getD HID_KEYBOARD_ERROR_ROLL_OVER false = false →
          ∀ b ∈ List.drop HID_KEYBOARD_INDEX_KEYS
              [0x00, 0x00, 0x01, 0x01, 0x01, 0x01, 0x01, 0x01],
            b ≠ HID_KEYBOARD_ERROR_ROLL_OVER)) :=
  ⟨by decide,
    C2_rollover_phantom table6 (table6.set 10 true) evScan10_down
      [0x00, 0x00, 0x01, 0x01, 0x01, 0x01, 0x01, 0x01] (by decide)⟩

/-- Counterexample to C3 as stated: the non-repeat press of Left-Control
(scancode 224, a dedicated modifier key code) is treated as supported and
produces a report, yet the key table it leaves behind is `table0` itself:
the tracker entry for key code 224 is not set to pressed, because 224 lies
outside the `HID_KEYBOARD_KEYS`-entry table and the update at line 188 is
guarded by `scancode < HID_KEYBOARD_KEYS`. -/
theorem C3_tracker_counterexample :
    evLCtrl_down.repeat_ = false ∧
      evLCtrl_down.etype = SDL_KEYDOWN ∧
      scancode_is_modifier evLCtrl_down.scancode = true ∧
      sc_key_processor_process_key true table0 evLCtrl_down =
        (table0, some [HID_KEYBOARD_MODIFIER_LEFT_CONTROL, 0x00, 0, 0, 0, 0, 0, 0]) ∧
      table0.getD evLCtrl_down.scancode false = false := by
  decide

/-- C3 (amended): an event whose scancode is a dedicated modifier key code
is treated as supported — `convert_hid_keyboard_event` runs and a report
carrying the event's modifier mask is produced — but no key-table entry is
updated: the table returned is the input table itself, and the encoder runs
on that unchanged table. -/
theorem C3_modifier_supported_table_untouched (keys : List Bool)
    (event : SDL_KeyboardEvent)
    (hmod : scancode_is_modifier event.scancode = true) :
    hid_keyboard_convert_event true keys event =
      some (keys, sdl_keymod_to_hid_modifiers event.keymod ::
        HID_KEYBOARD_RESERVED :: encodeKeySlots keys) := by
  have hge : ¬ event.scancode < HID_KEYBOARD_KEYS := by
    simp only [scancode_is_modifier, Bool.and_eq_true, decide_eq_true_eq,
      SDL_SCANCODE_LCTRL, SDL_SCANCODE_RGUI] at hmod
    simp only [HID_KEYBOARD_KEYS]
    omega
  rw [hid_keyboard_convert_event, if_pos (Or.inr hmod),
    convert_hid_keyboard_event, if_pos rfl]
  simp [hge]

/-- Witness for C3 (amended): pressing Left-Control on the all-false table
produces the modifier-only report and returns the table unchanged. -/
theorem C3_modifier_supported_table_untouched_witness :
    scancode_is_modifier evLCtrl_down.scancode = true ∧
      hid_keyboard_convert_event true table0 evLCtrl_down =
        some (table0, sdl_keymod_to_hid_modifiers evLCtrl_down.keymod ::
          HID_KEYBOARD_RESERVED :: encodeKeySlots table0) :=
  ⟨by decide, C3_modifier_supported_table_untouched table0 evLCtrl_down (by decide)⟩

/-- Counterexample to C5 as stated: Left-Control is a supported key, yet
after its non-repeat key-down is processed (once or twice) the key is in
the pressed set zero times, not exactly once — modifier key codes lie
outside the table and never enter the pressed set. -/
theorem C5_count_counterexample :
    evLCtrl_down.repeat_ = false ∧
      evLCtrl_down.etype = SDL_KEYDOWN ∧
      (sc_key_processor_process_key true table0 evLCtrl_down).1 = table0 ∧
      (sc_key_processor_process_key true
          (sc_key_processor_process_key true table0 evLCtrl_down).1 evLCtrl_down).1 =
        table0 ∧
      (pressedList
          (sc_key_processor_process_key true table0 evLCtrl_down).1).count
          evLCtrl_down.scancode = 0 := by
  decide

/-- C5 (amended): processing the same non-repeat key-down twice leaves the
key table exactly as processing it once, and for an encodable key code the
key is in the pressed set exactly once with every other entry unchanged
(a modifier key code never enters the pressed set, see the C3 theorems). -/
theorem C5_double_press_idempotent (keys : List Bool)
    (event : SDL_KeyboardEvent) (hrep : event.repeat_ = false)
    (hdown : event.etype = SDL_KEYDOWN)
    (henc : event.scancode < HID_KEYBOARD_KEYS)
    (hlen : keys.length = HID_KEYBOARD_KEYS) :
    (sc_key_processor_process_key true
        (sc_key_processor_process_key true keys event).1 event).1 =
      (sc_key_processor_process_key true keys event).1 ∧
      (pressedList (sc_key_processor_process_key true keys event).1).count
        event.scancode = 1 ∧
      ∀ j, j ≠ event.scancode →
        ((sc_key_processor_process_key true keys event).1).getD j false =
          keys.getD j false := by
  have hproc : ∀ ks : List Bool,
      (sc_key_processor_process_key true ks event).1 =
        ks.set event.scancode true := by
    intro ks
    simp [sc_key_processor_process_key, hrep, hid_keyboard_convert_event,
      Or.inl henc, convert_hid_keyboard_event, henc, hdown]
  have hk1 : (sc_key_processor_process_key true keys event).1 =
      keys.set event.scancode true := hproc keys
  refine ⟨?_, ?_, ?_⟩
  · rw [hproc, hk1, List.set_set]
  · rw [hk1]
    have hslt : event.scancode < keys.length := by omega
    have hmem : event.scancode ∈ pressedList (keys.set event.scancode true) := by
      refine (pressedList_mem _ _).mpr ⟨henc, ?_⟩
      simp [List.getD_eq_getElem?_getD, List.getElem?_set_self', hslt]
    exact List.count_eq_one_of_mem (pressedList_nodup _) hmem
  · intro j hj
    rw [hk1]
    simp [List.getD_eq_getElem?_getD, List.getElem?_set_ne (Ne.symm hj)]

/-- Witness for C5 (amended): pressing 'A' twice on the all-false table. -/
theorem C5_double_press_idempotent_witness :
    evA_down.repeat_ = false ∧
      evA_down.etype = SDL_KEYDOWN ∧
      evA_down.scancode < HID_KEYBOARD_KEYS ∧
      table0.length = HID_KEYBOARD_KEYS ∧
      ((sc_key_processor_process_key true
          (sc_key_processor_process_key true table0 evA_down).1 evA_down).1 =
        (sc_key_processor_process_key true table0 evA_down).1 ∧
      (pressedList (sc_key_processor_process_key true table0 evA_down).1).count
        evA_down.scancode = 1 ∧
      ∀ j, j ≠ evA_down.scancode →
        ((sc_key_processor_process_key true table0 evA_down).1).getD j false =
          table0.getD j false) :=
  ⟨by decide, by decide, by decide, by decide,
    C5_double_press_idempotent table0 evA_down (by decide) (by decide)
      (by decide) (by decide)⟩
